import Mathlib

/-!
Shallow embedding of the 8-channel triac phase-control dimmer
(`src/unnamed/part_000`, the current queue-based version; `src/src/main.cpp`
is the earlier fixed-tick version of the same program).

Conventions of the embedding:
* C `float` arithmetic is modelled by exact rationals (`ℚ`); the C
  `float → int` conversion truncates toward zero, which on the nonnegative
  values arising here coincides with `Int.floor`.
* Machine integers are modelled by `ℕ`/`ℤ` with explicit `% 2^w` where
  wrap-around matters (`unsigned char` is `% 256`, the AVR `unsigned int`
  is `% 65536`).  The published command values lie in `[0, 2^15)` for
  brightness inputs in `[0,1]`, where `int16_t` order agrees with `ℕ`
  order.
* Array reads that may be out of bounds return `Option` (`none` means the
  C program reads past the end of the array, undefined behaviour).
-/

namespace Dimmer

/-- The global `unsigned char low = 85;` (src/unnamed/part_000, line 45). -/
def cfg_low : ℕ := 85

/-- The global `unsigned char high = 45;` (src/unnamed/part_000, line 46). -/
def cfg_high : ℕ := 45

/-- The global `unsigned char off = 95;` (src/unnamed/part_000, line 47). -/
def cfg_off : ℕ := 95

/-- The scale factor `166` applied in `loop`:
`lux[i] = (high + (low - high)*(1-x)) * 166;`. -/
def ticksScale : ℕ := 166

/-- Modelled from the spec (spec-side definition for the refinement part
of C2): the Schedule Builder formula as the spec states it,
`fire_tick_i = high + (low - high) * (1 - x_i)`. -/
def spec_fire_tick (lo hi x : ℚ) : ℚ := hi + (lo - hi) * (1 - x)

/-- Modelled from the spec (spec-side definition for the refinement part
of C2): the spec's scaling, `tick_i = fire_tick_i * ticks_per_half_cycle`. -/
def spec_ticks_per_half_cycle : ℚ := 166

/-- Modelled from the spec (spec-side definition for C8): out-of-range
brightness "clamped to the nearest valid bound" of `[0,1]`. -/
def clampQ (x : ℚ) : ℚ := max 0 (min 1 x)

/-- The expression `(high + (low - high)*(1-x)) * 166` over exact rationals.  `low` and
`high` are `unsigned char` globals; `low - high` is computed after integer
promotion to `int`, hence the subtraction of the two promoted values. -/
def luxQ (lo hi : ℕ) (x : ℚ) : ℚ :=
  ((hi : ℚ) + ((lo : ℚ) - (hi : ℚ)) * (1 - x)) * (ticksScale : ℚ)

/-- The assignment `lux[i] = (float expression);` — conversion to `int`.  Truncation
toward zero equals `Int.floor` on the nonnegative values arising here. -/
def luxZ (lo hi : ℕ) (x : ℚ) : ℤ := ⌊luxQ lo hi x⌋

/-- The stored tick as a natural number (lossless whenever the tick is
nonnegative, which the claims' range hypotheses guarantee). -/
def luxNat (lo hi : ℕ) (x : ℚ) : ℕ := (luxZ lo hi x).toNat

/-- C8's spec-side builder: the same tick computation applied to the
clamped brightness. -/
def luxNatClamped (lo hi : ℕ) (x : ℚ) : ℕ := luxNat lo hi (clampQ x)

/-- The packing `newcommands[i] = (lux[i] & ~(0b111)) | i;`
For a nonnegative value, `& ~0b111` clears the low three bits, i.e. maps
`L` to `L / 8 * 8`, and `| i` with `i < 8` writes `i` into the cleared
low bits, i.e. adds `i`. -/
def packCommand (L i : ℕ) : ℕ := L / 8 * 8 + i

/-- The `min` variable of the inner selection-sort loop in `loop`
(`for j = i+1..7: if (newcommands[j] < min) min = newcommands[j];`):
scan `ys` with current minimum `m`, updating only on strict `<`. -/
def findMinVal (m : ℕ) : List ℕ → ℕ
  | [] => m
  | y :: ys => if y < m then findMinVal y ys else findMinVal m ys

/-- The `min_index` variable of the same inner loop, rendered
positionally: `none` means `min_index` still points at the start position
`i` (the scan never updated), `some (ts, ds)` means it points inside the
scanned suffix, splitting it as `ts ++ minimum :: ds`.  The branch
structure mirrors `findMinVal` comparison for comparison. -/
def findMinSplit (m : ℕ) : List ℕ → Option (List ℕ × List ℕ)
  | [] => none
  | y :: ys =>
    if y < m then
      match findMinSplit y ys with
      | none => some ([], ys)
      | some (ts, ds) => some (y :: ts, ds)
    else
      match findMinSplit m ys with
      | none => none
      | some (ts, ds) => some (y :: ts, ds)

/-- One pass of the outer sorting loop (src/unnamed/part_000, lines
234–246): find the minimum of the suffix starting at the current position
and swap it with the current position (the C code's three-line swap; when
`min_index == i` the swap is a no-op). -/
def selectOne (x : ℕ) (xs : List ℕ) : ℕ × List ℕ :=
  match findMinSplit x xs with
  | none => (x, xs)
  | some (ts, ds) => (findMinVal x xs, ts ++ x :: ds)

/-- The outer sorting loop (`for i = 0..7`), with the iteration count made
explicit as fuel: the C loop runs exactly once per position. -/
def ssortAux : ℕ → List ℕ → List ℕ
  | 0, l => l
  | _ + 1, [] => []
  | fuel + 1, x :: xs =>
    let p := selectOne x xs
    p.1 :: ssortAux fuel p.2

/-- The selection sort of `loop` (src/unnamed/part_000, lines 234–246). -/
def ssort (l : List ℕ) : List ℕ := ssortAux l.length l

/-- One iteration of `loop`'s schedule-building phase with explicit
configuration: compute `lux[i]` from the per-channel brightness `xs i`,
pack the channel index into the low bits, and sort.  The sorted array is
then copied to `commands` (published). -/
def buildCommandsWith (lo hi : ℕ) (xs : ℕ → ℚ) : List ℕ :=
  ssort ((List.range 8).map (fun i => packCommand (luxNat lo hi (xs i)) i))

/-- The schedule built by `loop` with the program's configured
`low = 85`, `high = 45`. -/
def buildCommands (xs : ℕ → ℚ) : List ℕ := buildCommandsWith cfg_low cfg_high xs

/-- Reading `commands[i]` at an arbitrary index, as the C dispatcher performs it:
the array has exactly 8 entries, so an access at index ≥ 8 is out of
bounds (`none`). -/
def cmdGet (cmds : Fin 8 → ℕ) (i : ℕ) : Option ℕ := if h : i < 8 then some (cmds ⟨i, h⟩) else none

/-- The `while(commands[next_command] <= TCNT1+64)` loop of
`ISR(TIMER1_COMPA_vect)` (src/unnamed/part_000, lines 106–112): fire the
channel packed in the low three bits (`commands[next_command] & 0b111`,
i.e. `% 8`), advance `next_command`, break once it reaches 8.  `TCNT1` is
treated as constant for the duration of the handler.  Returns the fired
channels in order and the final `next_command`; `none` means the loop
condition read `commands` out of bounds.  The fuel is one more than the
loop's maximum iteration count (the cursor only ever increases and the
loop breaks at 8, so 9 condition evaluations suffice from any entry
state with `next ≤ 8`). -/
def drainAux (cmds : Fin 8 → ℕ) (tcnt : ℕ) : ℕ → ℕ → Option (List ℕ × ℕ)
  | 0, _ => none
  | fuel + 1, next =>
    match cmdGet cmds next with
    | none => none
    | some v =>
      if v ≤ tcnt + 64 then
        if 8 ≤ next + 1 then some ([v % 8], next + 1)
        else
          match drainAux cmds tcnt fuel (next + 1) with
          | none => none
          | some (fs, n) => some (v % 8 :: fs, n)
      else some ([], next)

/-- The dispatch loop entered with cursor `next`. -/
def drain (cmds : Fin 8 → ℕ) (tcnt next : ℕ) : Option (List ℕ × ℕ) :=
  drainAux cmds tcnt 9 next

/-- Result of one invocation of `ISR(TIMER1_COMPA_vect)`. -/
structure DispatchResult where
  /-- channels pulsed HIGH and then driven LOW, in firing order -/
  fired : List ℕ
  /-- the value of `next_command` after the invocation -/
  nextIdx : ℕ
  /-- the value written to `OCR1A` (`commands[next_command]`) -/
  ocr1a : ℕ
  /-- the value of `TCNT1` after the invocation: the handler never writes the counter -/
  tcntAfter : ℕ
  /-- the debug LED (`next_command % 2 == 0` at entry) -/
  ledHigh : Bool
deriving DecidableEq

/-- The handler `ISR(TIMER1_COMPA_vect)` (src/unnamed/part_000, lines 102–118): set
the debug LED from the entry cursor parity, drain all due events (pulsing
each fired channel HIGH and then LOW), and re-arm `OCR1A` from
`commands[next_command]`.  `none` means the invocation performs an
out-of-bounds `commands` read (undefined behaviour): either in the loop
condition or in the final re-arm read. -/
def timer1CompaIsr (cmds : Fin 8 → ℕ) (tcnt next : ℕ) : Option DispatchResult :=
  match drain cmds tcnt next with
  | none => none
  | some (fired, n) =>
    match cmdGet cmds n with
    | none => none
    | some v => some ⟨fired, n, v, tcnt, decide (next % 2 = 0)⟩

/-- The function `timerIsr` (src/unnamed/part_000, lines 72–97; the legacy fixed-tick
handler, not attached in this version — `setup` uses `initialize_timer1`
and the `Timer1.attachInterrupt(timerIsr)` call is commented out).
`clock_tick` is an `unsigned char`, so the increment wraps at 256.  If the
incremented tick exceeds `off`, all 8 outputs are driven LOW and the tick
is clamped to `off`; otherwise every channel with `lux[i] <= clock_tick`
is pulsed HIGH then LOW (ending LOW), other outputs unchanged.  Returns
(new `clock_tick`, outputs). -/
def timerIsr (offv : ℕ) (luxA : Fin 8 → ℕ) (ct : ℕ) (outs : Fin 8 → Bool) :
    ℕ × (Fin 8 → Bool) :=
  let ct2 := (ct + 1) % 256
  if offv < ct2 then (offv, fun _ => false)
  else (ct2, fun i => if luxA i ≤ ct2 then false else outs i)

/-- The mutable state touched (or deliberately not touched) by
`zero_cross_int`. -/
structure SyncState where
  /-- the counter `TCNT1`, free-running and 16-bit -/
  tcnt : ℕ
  /-- the diagnostic capture `previous_zero_cross` -/
  prevZC : ℕ
  /-- the tick `clock_tick` (used only by the legacy handler) -/
  clockTick : ℕ
  /-- the dispatch cursor `next_command` -/
  nextCommand : ℕ
  /-- the flag `toggly_State` -/
  toggly : Bool
  /-- the debug LED pin -/
  ledOut : Bool
  /-- the hardware comparator `OCR1A` -/
  ocr1a : ℕ
  /-- the 8 channel output pins; `zero_cross_int` never writes them -/
  outs : Fin 8 → Bool

/-- The handler `zero_cross_int` (src/unnamed/part_000, lines 140–155):
`previous_zero_cross = TCNT1;` happens unconditionally, then an edge with
`TCNT1 < 1000` is rejected; an accepted edge zeroes `clock_tick`,
`next_command` and `toggly_State`, drives the debug LED LOW, re-arms
`OCR1A` at `commands[0]` and zeroes `TCNT1`.  The 8 channel outputs are
not touched on either path. -/
def zero_cross_int (cmds : Fin 8 → ℕ) (s : SyncState) : SyncState :=
  let s1 := { s with prevZC := s.tcnt }
  if s.tcnt < 1000 then s1
  else
    { s1 with
      clockTick := 0
      nextCommand := 0
      toggly := false
      ledOut := false
      ocr1a := cmds ⟨0, by decide⟩
      tcnt := 0 }

/-- The configuration globals adjusted by `serialEvent`. -/
structure Config where
  /-- the global `unsigned int delay_time` (16-bit on AVR) -/
  delay_time : ℕ
  /-- the global `unsigned char low` -/
  low : ℕ
  /-- the global `unsigned char high` -/
  high : ℕ
  /-- the global `unsigned char off` -/
  off : ℕ
deriving DecidableEq

/-- Processing of one received byte by `serialEvent` (src/unnamed/part_000,
lines 178–214).  The byte codes are ASCII: `'u' = 117` and `'d' = 100`
adjust `delay_time` (subtracting 10 on 16-bit unsigned wraps, hence
`+ 65526 mod 65536`); `'l' = 108` and `'h' = 104` BOTH adjust `low`
(subtract/add 10 on `unsigned char`, wrapping mod 256); `'o' = 111` and
`'f' = 102` adjust `off`; `'s' = 115` only prints.  No branch writes
`high`. -/
def serialStep (c : ℕ) (g : Config) : Config :=
  if c = 117 then { g with delay_time := (g.delay_time + 65526) % 65536 }
  else if c = 100 then { g with delay_time := (g.delay_time + 10) % 65536 }
  else if c = 108 then { g with low := (g.low + 246) % 256 }
  else if c = 104 then { g with low := (g.low + 10) % 256 }
  else if c = 111 then { g with off := (g.off + 246) % 256 }
  else if c = 102 then { g with off := (g.off + 10) % 256 }
  else g

/-- The initial configuration of the globals (src/unnamed/part_000,
lines 43–47). -/
def cfg0 : Config := ⟨100, 85, 45, 95⟩

/-- The queue published for the all-zero brightness vector:
`lux = 14110` for every channel, so entry `i` is `14104 + i`
(proved below as part of C7). -/
def cmds0 : Fin 8 → ℕ := fun i => 14104 + i.val

/-- A concrete pre-edge state with `TCNT1 = 500` (inside the debounce
window). -/
def sDebounce : SyncState :=
  ⟨500, 0, 7, 3, true, true, 123, fun _ => false⟩

/-- A concrete pre-edge state with `TCNT1 = 2000` (an accepted edge) in
which channel 3's output is asserted. -/
def sAccept : SyncState :=
  ⟨2000, 0, 7, 3, true, true, 123, fun i => decide (i.val = 3)⟩

/-! ### Correctness of the selection sort -/

theorem findMinVal_le (ys : List ℕ) : ∀ m : ℕ, findMinVal m ys ≤ m := by
  induction ys with
  | nil => intro m; simp [findMinVal]
  | cons y ys ih =>
    intro m
    by_cases hy : y < m
    · simpa [findMinVal, hy] using le_trans (ih y) (le_of_lt hy)
    · simpa [findMinVal, hy] using ih m

theorem findMinVal_le_mem (ys : List ℕ) : ∀ m : ℕ, ∀ z ∈ ys, findMinVal m ys ≤ z := by
  induction ys with
  | nil => intro m z hz; simp at hz
  | cons y ys ih =>
    intro m z hz
    rcases List.mem_cons.mp hz with rfl | hz2
    · by_cases hy : z < m
      · simpa [findMinVal, hy] using findMinVal_le ys z
      · simp only [findMinVal, if_neg hy]
        exact le_trans (findMinVal_le ys m) (not_lt.mp hy)
    · by_cases hy : y < m
      · simpa [findMinVal, hy] using ih y z hz2
      · simpa [findMinVal, hy] using ih m z hz2

theorem findMinSplit_none (ys : List ℕ) :
    ∀ m : ℕ, findMinSplit m ys = none → findMinVal m ys = m := by
  induction ys with
  | nil => intro m _; simp [findMinVal]
  | cons y ys ih =>
    intro m h
    by_cases hy : y < m
    · exfalso
      simp only [findMinSplit, if_pos hy] at h
      rcases hs : findMinSplit y ys with _ | ⟨ts, ds⟩ <;> rw [hs] at h <;> simp at h
    · simp only [findMinSplit, if_neg hy] at h
      rcases hs : findMinSplit m ys with _ | ⟨ts, ds⟩
      · simp [findMinVal, hy, ih m hs]
      · rw [hs] at h; simp at h

theorem findMinSplit_some (ys : List ℕ) :
    ∀ m ts ds, findMinSplit m ys = some (ts, ds) →
      ys = ts ++ findMinVal m ys :: ds := by
  induction ys with
  | nil => intro m ts ds h; simp [findMinSplit] at h
  | cons y ys ih =>
    intro m ts ds h
    by_cases hy : y < m
    · simp only [findMinSplit, if_pos hy] at h
      rcases hs : findMinSplit y ys with _ | ⟨ts2, ds2⟩ <;> rw [hs] at h <;>
        simp only [Option.some.injEq, Prod.mk.injEq] at h
      · obtain ⟨h1, h2⟩ := h
        subst h1
        subst h2
        simp [findMinVal, hy, findMinSplit_none ys y hs]
      · obtain ⟨h1, h2⟩ := h
        subst h1
        subst h2
        simpa [findMinVal, hy] using congrArg (List.cons y) (ih y ts2 ds2 hs)
    · simp only [findMinSplit, if_neg hy] at h
      rcases hs : findMinSplit m ys with _ | ⟨ts2, ds2⟩ <;> rw [hs] at h <;>
        simp only [Option.some.injEq, Prod.mk.injEq] at h
      · exact absurd h (by simp)
      · obtain ⟨h1, h2⟩ := h
        subst h1
        subst h2
        simpa [findMinVal, hy] using congrArg (List.cons y) (ih m ts2 ds2 hs)

theorem selectOne_snd_length (x : ℕ) (xs : List ℕ) :
    (selectOne x xs).2.length = xs.length := by
  rcases hs : findMinSplit x xs with _ | ⟨ts, ds⟩
  · simp [selectOne, hs]
  · have hx := findMinSplit_some xs x ts ds hs
    simp only [selectOne, hs]
    rw [hx]
    simp

theorem selectOne_perm (x : ℕ) (xs : List ℕ) :
    List.Perm ((selectOne x xs).1 :: (selectOne x xs).2) (x :: xs) := by
  rcases hs : findMinSplit x xs with _ | ⟨ts, ds⟩
  · simp [selectOne, hs]
  · have hx := findMinSplit_some xs x ts ds hs
    simp only [selectOne, hs]
    set v := findMinVal x xs with hv
    rw [hx]
    calc
      List.Perm (v :: (ts ++ x :: ds)) (v :: (x :: (ts ++ ds))) :=
        List.Perm.cons v List.perm_middle
      List.Perm _ (x :: (v :: (ts ++ ds))) := List.Perm.swap x v (ts ++ ds)
      List.Perm _ (x :: (ts ++ v :: ds)) := List.Perm.cons x List.perm_middle.symm

theorem selectOne_fst_le (x : ℕ) (xs : List ℕ) :
    (selectOne x xs).1 ≤ x ∧ ∀ z ∈ xs, (selectOne x xs).1 ≤ z := by
  rcases hs : findMinSplit x xs with _ | ⟨ts, ds⟩
  · have h0 := findMinSplit_none xs x hs
    simp only [selectOne, hs]
    exact ⟨le_refl x, fun z hz => by rw [← h0]; exact findMinVal_le_mem xs x z hz⟩
  · simp only [selectOne, hs]
    exact ⟨findMinVal_le xs x, fun z hz => findMinVal_le_mem xs x z hz⟩

theorem selectOne_min_tail (x : ℕ) (xs : List ℕ) :
    ∀ z ∈ (selectOne x xs).2, (selectOne x xs).1 ≤ z := by
  intro z hz
  have hmem : z ∈ x :: xs :=
    (selectOne_perm x xs).mem_iff.mp (List.mem_cons_of_mem _ hz)
  rcases List.mem_cons.mp hmem with rfl | hz2
  · exact (selectOne_fst_le z xs).1
  · exact (selectOne_fst_le x xs).2 z hz2

theorem ssortAux_perm : ∀ (fuel : ℕ) (l : List ℕ), l.length ≤ fuel →
    List.Perm (ssortAux fuel l) l := by
  intro fuel
  induction fuel with
  | zero => intro l _; exact List.Perm.refl l
  | succ fuel ih =>
    intro l h
    cases l with
    | nil => simp [ssortAux]
    | cons x xs =>
      show List.Perm ((selectOne x xs).1 :: ssortAux fuel (selectOne x xs).2) (x :: xs)
      have h2 : (selectOne x xs).2.length ≤ fuel := by
        rw [selectOne_snd_length]
        simp only [List.length_cons] at h
        omega
      exact ((ih _ h2).cons _).trans (selectOne_perm x xs)

theorem ssortAux_sorted : ∀ (fuel : ℕ) (l : List ℕ), l.length ≤ fuel →
    List.Sorted (fun a b => a ≤ b) (ssortAux fuel l) := by
  intro fuel
  induction fuel with
  | zero =>
    intro l h
    have : l = [] := List.eq_nil_of_length_eq_zero (Nat.le_zero.mp h)
    subst this
    simp [ssortAux]
  | succ fuel ih =>
    intro l h
    cases l with
    | nil => simp [ssortAux]
    | cons x xs =>
      show List.Sorted _ ((selectOne x xs).1 :: ssortAux fuel (selectOne x xs).2)
      have h2 : (selectOne x xs).2.length ≤ fuel := by
        rw [selectOne_snd_length]
        simp only [List.length_cons] at h
        omega
      rw [List.sorted_cons]
      refine ⟨fun b hb => ?_, ih _ h2⟩
      exact selectOne_min_tail x xs b ((ssortAux_perm fuel _ h2).mem_iff.mp hb)

theorem ssort_perm (l : List ℕ) : List.Perm (ssort l) l :=
  ssortAux_perm l.length l le_rfl

theorem ssort_sorted (l : List ℕ) : List.Sorted (fun a b => a ≤ b) (ssort l) :=
  ssortAux_sorted l.length l le_rfl

/-! ### Evaluation helpers for the tick computation -/

theorem luxNat_at_zero : luxNat 85 45 0 = 14110 := by
  norm_num [luxNat, luxZ, luxQ, ticksScale]
  rfl

theorem luxNat_at_one : luxNat 85 45 1 = 7470 := by
  norm_num [luxNat, luxZ, luxQ, ticksScale]
  rfl

theorem luxNat_at_two : luxNat 85 45 2 = 830 := by
  norm_num [luxNat, luxZ, luxQ, ticksScale]
  rfl

/-! ### The claims -/

/-- C2: for brightness values in `[0,1]`, the Schedule Builder computes
`fire_tick_i = high + (low - high) * (1 - x_i)` scaled into hardware ticks
(`tick_i = fire_tick_i * ticks_per_half_cycle`, with 166 ticks per
brightness unit), and the computed tick is monotonically non-increasing in
the brightness whenever the configured `low` exceeds `high`. -/
theorem C2_fire_tick_formula_monotone (lo hi : ℕ) (x1 x2 : ℚ)
    (hcfg : hi < lo) (h0 : 0 ≤ x1) (h12 : x1 ≤ x2) (h1 : x2 ≤ 1) :
    (∀ x : ℚ, luxQ lo hi x = spec_fire_tick lo hi x * spec_ticks_per_half_cycle) ∧
    luxNat lo hi x2 ≤ luxNat lo hi x1 := by
  constructor
  · intro x
    simp only [luxQ, spec_fire_tick, spec_ticks_per_half_cycle, ticksScale]
    push_cast
    ring
  · have hlt : (hi : ℚ) < (lo : ℚ) := by exact_mod_cast hcfg
    have hq : luxQ lo hi x2 ≤ luxQ lo hi x1 := by
      simp only [luxQ, ticksScale]
      push_cast
      nlinarith [mul_nonneg (le_of_lt (sub_pos.mpr hlt)) (sub_nonneg.mpr h12)]
    exact Int.toNat_le_toNat (Int.floor_mono hq)

theorem C2_witness :
    (45 < 85 ∧ (0 : ℚ) ≤ 0 ∧ (0 : ℚ) ≤ 1 ∧ (1 : ℚ) ≤ 1) ∧
    (∀ x : ℚ, luxQ 85 45 x = spec_fire_tick 85 45 x * spec_ticks_per_half_cycle) ∧
    luxNat 85 45 1 ≤ luxNat 85 45 0 :=
  ⟨⟨by norm_num, le_refl 0, by norm_num, le_refl 1⟩,
    C2_fire_tick_formula_monotone 85 45 0 1 (by norm_num) (le_refl 0) (by norm_num)
      (le_refl 1)⟩

/-- C7 counterexample: for brightness 0 the computed tick is
`85 * 166 = 14110`, which is strictly BELOW the `off` threshold in either
unit (`14110 / 166 = 85 < 95`, and `14110 < 95 * 166 = 15770`), not at or
above it as the claim states. -/
theorem C7_counterexample :
    luxNat 85 45 0 = 14110 ∧
    luxNat 85 45 0 < cfg_off * ticksScale ∧
    luxNat 85 45 0 / ticksScale < cfg_off := by
  refine ⟨luxNat_at_zero, ?_, ?_⟩ <;> rw [luxNat_at_zero] <;> decide

/-- C7 amended: for the all-zero brightness vector every computed tick
equals `85 * 166 = 14110` and the published queue is
`[14104 + i | i = 0..7]`; every entry is strictly below the `off`
threshold (`95 * 166 = 15770`), so each channel still fires (at maximal
delay) rather than never firing. -/
theorem C7_amended_zero_brightness_below_off :
    buildCommands (fun _ => 0) =
      [14104, 14105, 14106, 14107, 14108, 14109, 14110, 14111] ∧
    ((buildCommands (fun _ => 0)).all fun c => decide (c < cfg_off * ticksScale)) = true := by
  have hb : buildCommands (fun _ => 0) =
      [14104, 14105, 14106, 14107, 14108, 14109, 14110, 14111] := by
    simp only [buildCommands, buildCommandsWith, cfg_low, cfg_high, luxNat_at_zero]
    decide
  exact ⟨hb, by rw [hb]; decide⟩

/-- C8 counterexample: the Schedule Builder does not clamp: for the
out-of-range brightness 2 the computed tick is `(45 - 40) * 166 = 830`,
not the tick `7470` computed for the nearest in-range brightness 1. -/
theorem C8_counterexample : luxNat 85 45 2 ≠ luxNatClamped 85 45 2 := by
  have h2 : luxNatClamped 85 45 2 = 7470 := by
    have hc : clampQ 2 = 1 := by norm_num [clampQ]
    rw [luxNatClamped, hc, luxNat_at_one]
  rw [luxNat_at_two, h2]
  decide

/-- C8 amended: the Schedule Builder never rejects an input and always
publishes a full 8-entry schedule, but it performs no clamping; the
unclamped and clamped computations agree exactly on the range `[0,1]`
that the program's waveform generator actually produces. -/
theorem C8_amended_no_clamp_needed_in_range (lo hi : ℕ) (x : ℚ)
    (h0 : 0 ≤ x) (h1 : x ≤ 1) :
    luxNat lo hi x = luxNatClamped lo hi x ∧
    ∀ ys : ℕ → ℚ, (buildCommandsWith lo hi ys).length = 8 := by
  constructor
  · rw [luxNatClamped, clampQ, min_eq_right h1, max_eq_right h0]
  · intro ys
    rw [buildCommandsWith, (ssort_perm _).length_eq]
    simp

theorem C8_witness :
    ((0 : ℚ) ≤ 1 / 2 ∧ (1 : ℚ) / 2 ≤ 1) ∧
    luxNat 85 45 (1 / 2) = luxNatClamped 85 45 (1 / 2) ∧
    ∀ ys : ℕ → ℚ, (buildCommandsWith 85 45 ys).length = 8 :=
  ⟨⟨by norm_num, by norm_num⟩,
    C8_amended_no_clamp_needed_in_range 85 45 (1 / 2) (by norm_num) (by norm_num)⟩

/-- C1: the queue published by one iteration of `loop` has exactly 8
entries; the low three bits of the entries are a permutation of the 8
channels (no duplicate channel); the entries are sorted ascending by
`fire_tick` (the packed value with its low three bits cleared); and two
entries with equal `fire_tick` appear with the lower channel index
first.  The range hypothesis states that the brightness samples (the
waveform products in the source) lie in `[0,1]`, which keeps the model of
the `int16_t` arithmetic lossless. -/
theorem C1_published_queue_sorted_permutation (xs : ℕ → ℚ)
    (hx : ∀ i < 8, 0 ≤ xs i ∧ xs i ≤ 1) :
    (buildCommands xs).length = 8 ∧
    List.Perm ((buildCommands xs).map fun c => c % 8) (List.range 8) ∧
    List.Pairwise (fun a b => a / 8 * 8 ≤ b / 8 * 8) (buildCommands xs) ∧
    List.Pairwise (fun a b => a / 8 * 8 = b / 8 * 8 → a % 8 < b % 8) (buildCommands xs) := by
  have hxused := hx
  simp only [buildCommands, buildCommandsWith]
  set l := (List.range 8).map fun i => packCommand (luxNat cfg_low cfg_high (xs i)) i with hl
  have hchan : (l.map fun c => c % 8) = List.range 8 := by
    rw [hl, List.map_map]
    have hp : ∀ i ∈ List.range 8,
        ((fun c => c % 8) ∘ fun i => packCommand (luxNat cfg_low cfg_high (xs i)) i) i =
          id i := by
      intro i hi
      have h8 : i < 8 := List.mem_range.mp hi
      simp only [Function.comp_apply, packCommand, id_eq]
      omega
    rw [List.map_congr_left hp, List.map_id]
  have hchanperm : List.Perm ((ssort l).map fun c => c % 8) (List.range 8) := by
    have h := (ssort_perm l).map fun c => c % 8
    rw [hchan] at h
    exact h
  have hsort := ssort_sorted l
  have hne : List.Pairwise (fun a b => a % 8 ≠ b % 8) (ssort l) := by
    have hnd : ((ssort l).map fun c => c % 8).Nodup :=
      hchanperm.nodup_iff.mpr (List.nodup_range 8)
    exact List.pairwise_map.mp hnd
  refine ⟨?_, hchanperm, ?_, ?_⟩
  · rw [(ssort_perm l).length_eq, hl]
    simp
  · exact hsort.imp fun h => by omega
  · exact (hsort.and hne).imp fun h hdiv => by omega

theorem C1_witness :
    (∀ i < 8, 0 ≤ (fun _ => (0 : ℚ)) i ∧ (fun _ => (0 : ℚ)) i ≤ 1) ∧
    (buildCommands fun _ => 0).length = 8 ∧
    List.Perm ((buildCommands fun _ => 0).map fun c => c % 8) (List.range 8) ∧
    List.Pairwise (fun a b => a / 8 * 8 ≤ b / 8 * 8) (buildCommands fun _ => 0) ∧
    List.Pairwise (fun a b => a / 8 * 8 = b / 8 * 8 → a % 8 < b % 8)
      (buildCommands fun _ => 0) :=
  ⟨fun _ _ => ⟨le_refl 0, by norm_num⟩,
    C1_published_queue_sorted_permutation (fun _ => 0)
      (fun _ _ => ⟨le_refl 0, by norm_num⟩)⟩

/-- C10: every entry of the published queue stores its channel in the low
three bits (`e % 8 = i`), stores the computed tick with its low three bits
cleared in the remaining bits (`e / 8 * 8 = lux / 8 * 8`), and therefore
differs from the computed `fire_tick` by at most 7 counter ticks. -/
theorem C10_packed_entry_encoding (xs : ℕ → ℚ)
    (hx : ∀ i < 8, 0 ≤ xs i ∧ xs i ≤ 1) :
    ∀ e ∈ buildCommands xs, ∃ i, i < 8 ∧
      e = packCommand (luxNat cfg_low cfg_high (xs i)) i ∧
      e % 8 = i ∧
      e / 8 * 8 = luxNat cfg_low cfg_high (xs i) / 8 * 8 ∧
      luxNat cfg_low cfg_high (xs i) ≤ e + 7 ∧
      e ≤ luxNat cfg_low cfg_high (xs i) + 7 := by
  have hxused := hx
  intro e he
  simp only [buildCommands, buildCommandsWith] at he
  have he2 : e ∈ (List.range 8).map fun i => packCommand (luxNat cfg_low cfg_high (xs i)) i :=
    (ssort_perm _).mem_iff.mp he
  obtain ⟨i, hi, hei⟩ := List.mem_map.mp he2
  have h8 : i < 8 := List.mem_range.mp hi
  subst hei
  exact ⟨i, h8, rfl, by simp only [packCommand]; omega, by simp only [packCommand]; omega,
    by simp only [packCommand]; omega, by simp only [packCommand]; omega⟩

theorem C10_witness :
    (∀ i < 8, 0 ≤ (fun _ => (1 : ℚ) / 2) i ∧ (fun _ => (1 : ℚ) / 2) i ≤ 1) ∧
    ∀ e ∈ buildCommands fun _ => 1 / 2, ∃ i, i < 8 ∧
      e = packCommand (luxNat cfg_low cfg_high ((fun _ => (1 : ℚ) / 2) i)) i ∧
      e % 8 = i ∧
      e / 8 * 8 = luxNat cfg_low cfg_high ((fun _ => (1 : ℚ) / 2) i) / 8 * 8 ∧
      luxNat cfg_low cfg_high ((fun _ => (1 : ℚ) / 2) i) ≤ e + 7 ∧
      e ≤ luxNat cfg_low cfg_high ((fun _ => (1 : ℚ) / 2) i) + 7 :=
  ⟨fun _ _ => ⟨by norm_num, by norm_num⟩,
    C10_packed_entry_encoding (fun _ => 1 / 2) (fun _ _ => ⟨by norm_num, by norm_num⟩)⟩

/-- C3 counterexample: with the published all-zero-brightness queue, a
cursor at 0 and the counter at 16000 — past the `off` threshold
`95 * 166 = 15770` in hardware ticks — the active dispatcher
`ISR(TIMER1_COMPA_vect)` does NOT force the outputs LOW and clamp the
counter: it has no `off` check at all; it drains every remaining event
(pulsing those channels) and then performs an out-of-bounds `commands`
read (`none`), never writing the counter. -/
theorem C3_counterexample :
    cfg_off * ticksScale < 16000 ∧ timer1CompaIsr cmds0 16000 0 = none := by
  constructor <;> decide

/-- C3 amended: the `off`-threshold fallback exists only in `timerIsr`,
the legacy fixed-tick handler that is NOT attached in this version: on
every `timerIsr` invocation whose incremented `clock_tick` exceeds `off`,
regardless of the `lux` state, all 8 outputs are driven LOW and
`clock_tick` is clamped at `off`.  The comparator-driven dispatcher that
actually runs performs no such check. -/
theorem C3_amended_fallback_only_in_timerIsr (offv : ℕ) (luxA : Fin 8 → ℕ)
    (ct : ℕ) (outs : Fin 8 → Bool) (h : offv < (ct + 1) % 256) :
    timerIsr offv luxA ct outs = (offv, fun _ => false) := by
  simp [timerIsr, h]

theorem C3_witness :
    95 < (100 + 1) % 256 ∧
    timerIsr 95 (fun _ => 0) 100 (fun _ => true) = (95, fun _ => false) :=
  ⟨by decide, C3_amended_fallback_only_in_timerIsr 95 (fun _ => 0) 100 (fun _ => true)
    (by decide)⟩

/-- C4: once all 8 events are consumed the re-arm read
`OCR1A = commands[next_command]` evaluates `commands[8]`, one past the
end of the 8-entry array.  Concretely: with the all-zero-brightness queue,
cursor 0 and `TCNT1 = 14047`, every entry satisfies
`commands[i] <= TCNT1 + 64`, the loop fires all 8 channels, exits with
`next_command = 8`, and the re-arm read is out of bounds (`none`). -/
theorem C4_rearm_read_out_of_bounds :
    timer1CompaIsr cmds0 14047 0 = none ∧ cmdGet cmds0 8 = none := by
  constructor <;> decide

/-- C5 counterexample: an edge arriving at `TCNT1 = 500` (inside the
debounce window) is NOT free of state change: `previous_zero_cross` is
updated unconditionally before the debounce check. -/
theorem C5_counterexample :
    (zero_cross_int cmds0 sDebounce).prevZC ≠ sDebounce.prevZC := by
  decide

/-- C5 amended: an edge arriving with the counter below the 1000-tick
debounce threshold leaves the counter, the dispatch cursor, the
comparator, the outputs and all remaining state unchanged EXCEPT the
diagnostic capture `previous_zero_cross`, which is unconditionally set to
the current counter value. -/
theorem C5_amended_debounced_edge_only_updates_capture (cmds : Fin 8 → ℕ)
    (s : SyncState) (h : s.tcnt < 1000) :
    zero_cross_int cmds s = { s with prevZC := s.tcnt } := by
  simp [zero_cross_int, h]

theorem C5_witness :
    sDebounce.tcnt < 1000 ∧
    zero_cross_int cmds0 sDebounce = { sDebounce with prevZC := sDebounce.tcnt } :=
  ⟨by decide, C5_amended_debounced_edge_only_updates_capture cmds0 sDebounce (by decide)⟩

/-- C6 counterexample: on an accepted edge (`TCNT1 = 2000 ≥ 1000`) with
channel 3's output asserted, `zero_cross_int` does NOT clear the channel
outputs — channel 3 is still asserted afterwards (the handler only drives
the debug LED LOW). -/
theorem C6_counterexample :
    1000 ≤ sAccept.tcnt ∧ (zero_cross_int cmds0 sAccept).outs 3 = true := by
  constructor <;> decide

/-- C6 amended: on an accepted edge the synchronizer captures the counter
into `previous_zero_cross`, resets the counter, the dispatch cursor
`next_command`, `clock_tick` and `toggly_State` to zero/false, drives the
debug LED LOW and re-arms the comparator at `commands[0]` — but it leaves
the 8 channel outputs untouched. -/
theorem C6_amended_accepted_edge_resets_but_keeps_outputs (cmds : Fin 8 → ℕ)
    (s : SyncState) (h : 1000 ≤ s.tcnt) :
    zero_cross_int cmds s =
      { tcnt := 0, prevZC := s.tcnt, clockTick := 0, nextCommand := 0,
        toggly := false, ledOut := false, ocr1a := cmds ⟨0, by decide⟩,
        outs := s.outs } := by
  have h2 : ¬ s.tcnt < 1000 := not_lt.mpr h
  simp [zero_cross_int, h2]

theorem C6_witness :
    1000 ≤ sAccept.tcnt ∧
    zero_cross_int cmds0 sAccept =
      { tcnt := 0, prevZC := sAccept.tcnt, clockTick := 0, nextCommand := 0,
        toggly := false, ledOut := false, ocr1a := cmds0 ⟨0, by decide⟩,
        outs := sAccept.outs } :=
  ⟨by decide, C6_amended_accepted_edge_resets_but_keeps_outputs cmds0 sAccept (by decide)⟩

set_option maxRecDepth 4000 in
/-- C9 counterexample: starting from the initial configuration, none of
the 256 possible input bytes changes `high` — in particular the byte
`'h' = 104` increments `low`, not `high`.  So the interface does not
expose `high` as adjustable. -/
theorem C9_counterexample :
    ((List.range 256).all fun c => (serialStep c cfg0).high == cfg0.high) = true ∧
    (serialStep 104 cfg0).low = 95 := by
  constructor <;> decide

/-- C9 amended: the command interface exposes `delay_time`
(`'u'`/`'d'`), `low` (`'l'`/`'h'`) and `off` (`'o'`/`'f'`) as adjustable
by decrement/increment pairs, each wrapping in its machine width; no
command modifies `high`. -/
theorem C9_amended_serial_commands (g : Config) :
    (serialStep 117 g).delay_time = (g.delay_time + 65526) % 65536 ∧
    (serialStep 100 g).delay_time = (g.delay_time + 10) % 65536 ∧
    (serialStep 108 g).low = (g.low + 246) % 256 ∧
    (serialStep 104 g).low = (g.low + 10) % 256 ∧
    (serialStep 111 g).off = (g.off + 246) % 256 ∧
    (serialStep 102 g).off = (g.off + 10) % 256 ∧
    ∀ c : ℕ, (serialStep c g).high = g.high := by
  refine ⟨rfl, rfl, rfl, rfl, rfl, rfl, ?_⟩
  intro c
  unfold serialStep
  repeat' split
  all_goals rfl

end Dimmer
